import Mathlib

/-!
Verification of the sync-manager orchestration core
(`components/sync_manager/src/manager.rs` and
`components/sync_manager/src/clients/record.rs`) against its
natural-language specification.

The development shallowly embeds the Rust source:

* the serde-derived JSON (de)serialization of `Client` / `ClientCommand`
  is rendered as explicit functions over an inductive `Json` type,
  following the field attributes (`rename`, `default`,
  `skip_serializing_if`) exactly;
* `SyncManager` and its operations (`wipe`, `wipe_all`, `reset`,
  `reset_all`, `disconnect`, `sync`) are state-passing functions; a Rust
  panic (`expect` / `assert!`) is a distinguished `Outcome.panicked`
  result; `Weak<T>` handles are `Option`s (none = owner dropped);
* code of the repository that is outside the staged sources (the `sync15`
  driver, the clients engine internals, the concrete stores, credential
  parsing) is modelled from the spec, with the external outcomes supplied
  through an explicit `Env` record.
-/

namespace SyncMgr

/-! ## JSON values

A minimal JSON universe, sufficient for the client records: the wire
records contain only strings, arrays, objects and (in the corrected
behaviour) `null`. An object is an ordered field list, as serde_json
emits it. -/

inductive Json where
  | null : Json
  | str : String → Json
  | arr : List Json → Json
  | obj : List (String × Json) → Json

/-- Field lookup in an object's field list (first match wins, as in
serde's deserialization of a struct from a JSON map). -/
def getField : List (String × Json) → String → Option Json
  | [], _ => none
  | (k, v) :: rest, k' => if k = k' then some v else getField rest k'

/-- The field list of an object; `[]` for any other value. -/
def objFields : Json → List (String × Json)
  | Json.obj o => o
  | _ => []

/-! ## `ClientCommand` (clients/record.rs lines 54-72)

```rust
#[serde(rename_all = "camelCase")]
pub struct ClientCommand {
    #[serde(rename = "command")] pub name: String,
    #[serde(default)] pub args: Vec<String>,
    #[serde(default, skip_serializing_if = "Option::is_none")]
    pub flow_id: Option<String>,
}
``` -/

structure ClientCommand where
  name : String
  args : List String
  flow_id : Option String
  deriving DecidableEq, Repr

/-- serde serialization of `Option<String>` under
`skip_serializing_if = "Option::is_none"`: emitted only when present. -/
def optField (k : String) : Option String → List (String × Json)
  | none => []
  | some s => [(k, Json.str s)]

/-- The serialized field list of a `ClientCommand`. `args` has no
`skip_serializing_if`, so it is always emitted (an empty `Vec` becomes
`[]`); `flow_id` is skipped when `None`. -/
def ClientCommand.fields (c : ClientCommand) : List (String × Json) :=
  [("command", Json.str c.name), ("args", Json.arr (c.args.map Json.str))]
    ++ optField "flowId" c.flow_id

def ClientCommand.toJson (c : ClientCommand) : Json :=
  Json.obj c.fields

/-- serde deserialization of a `String` field. -/
def asString : Json → Option String
  | Json.str s => some s
  | _ => none

/-- Element-wise decode of an array of strings (serde decodes a
`Vec<String>` element by element, failing on the first bad element). -/
def decodeStrings : List Json → Option (List String)
  | [] => some []
  | j :: rest => (asString j).bind fun s => (decodeStrings rest).map (s :: ·)

/-- serde deserialization of a `Vec<String>` value: must be an array of
strings (`null` is rejected). -/
def asStringArray : Json → Option (List String)
  | Json.arr xs => decodeStrings xs
  | _ => none

/-- serde deserialization of an `Option<String>` field carrying
`#[serde(default)]`: absent or `null` gives `None`, a string gives
`Some`, anything else is an error. -/
def decOptStr (o : List (String × Json)) (k : String) : Option (Option String) :=
  match getField o k with
  | none => some none
  | some Json.null => some none
  | some (Json.str s) => some (some s)
  | some _ => none

/-- serde deserialization of a `Vec<String>` field carrying
`#[serde(default)]`: absent gives the default `[]`. -/
def decStrList (o : List (String × Json)) (k : String) : Option (List String) :=
  match getField o k with
  | none => some []
  | some v => asStringArray v

def ClientCommand.fromJson : Json → Option ClientCommand
  | Json.obj o =>
    (getField o "command").bind fun nameJ =>
    (asString nameJ).bind fun name =>
    (decStrList o "args").bind fun args =>
    (decOptStr o "flowId").bind fun flow =>
    some ⟨name, args, flow⟩
  | _ => none

/-! ## `Client` (clients/record.rs lines 8-52)

Field attributes, in struct order:
`id` (rename "id"), `name`, `typ` (rename "type", `default`, no skip —
so `None` serializes as `null`), `commands` (`default`, skip when
empty), `fxa_device_id` (skip when none), `version` (skip when none),
`protocols` (`default`, skip when empty), `form_factor` (rename
"formfactor", skip when none), `os`, `app_package` (camelCase
"appPackage"), `application`, `device` (each `default`, skip when
none). -/

structure Client where
  id : String
  name : String
  typ : Option String
  commands : List ClientCommand
  fxa_device_id : Option String
  version : Option String
  protocols : List String
  form_factor : Option String
  os : Option String
  app_package : Option String
  application : Option String
  device : Option String
  deriving DecidableEq, Repr

/-- serde serialization of `Option<String>` without a
`skip_serializing_if` attribute: `None` is emitted as `null`. -/
def optStrJson : Option String → Json
  | none => Json.null
  | some s => Json.str s

/-- The serialized field list of a `Client`, following the struct's field
order and attributes. -/
def Client.fieldList (c : Client) : List (String × Json) :=
  [("id", Json.str c.id), ("name", Json.str c.name), ("type", optStrJson c.typ)]
    ++ (if c.commands.isEmpty then []
        else [("commands", Json.arr (c.commands.map ClientCommand.toJson))])
    ++ optField "fxaDeviceId" c.fxa_device_id
    ++ optField "version" c.version
    ++ (if c.protocols.isEmpty then []
        else [("protocols", Json.arr (c.protocols.map Json.str))])
    ++ optField "formfactor" c.form_factor
    ++ optField "os" c.os
    ++ optField "appPackage" c.app_package
    ++ optField "application" c.application
    ++ optField "device" c.device

def Client.toJson (c : Client) : Json :=
  Json.obj c.fieldList

/-- Element-wise decode of an array of client commands. -/
def decodeCommands : List Json → Option (List ClientCommand)
  | [] => some []
  | j :: rest =>
    (ClientCommand.fromJson j).bind fun c => (decodeCommands rest).map (c :: ·)

/-- serde deserialization of a `Vec<ClientCommand>` field carrying
`#[serde(default)]`: absent gives `[]`, an array is decoded
element-wise, anything else is an error. -/
def decCmdList (o : List (String × Json)) (k : String) : Option (List ClientCommand) :=
  match getField o k with
  | none => some []
  | some (Json.arr xs) => decodeCommands xs
  | some _ => none

def Client.fromJson : Json → Option Client
  | Json.obj o =>
    (getField o "id").bind fun idJ =>
    (asString idJ).bind fun i =>
    (getField o "name").bind fun nameJ =>
    (asString nameJ).bind fun n =>
    (decOptStr o "type").bind fun typ =>
    (decCmdList o "commands").bind fun commands =>
    (decOptStr o "fxaDeviceId").bind fun fxa =>
    (decOptStr o "version").bind fun version =>
    (decStrList o "protocols").bind fun protocols =>
    (decOptStr o "formfactor").bind fun ff =>
    (decOptStr o "os").bind fun os =>
    (decOptStr o "appPackage").bind fun ap =>
    (decOptStr o "application").bind fun app =>
    (decOptStr o "device").bind fun dev =>
    some ⟨i, n, typ, commands, fxa, version, protocols, ff, os, ap, app, dev⟩
  | _ => none

/-! ## Lookup lemmas for the serialized field lists -/

theorem getField_append (l₁ l₂ : List (String × Json)) (k : String) :
    getField (l₁ ++ l₂) k =
      match getField l₁ k with
      | some v => some v
      | none => getField l₂ k := by
  induction l₁ with
  | nil => simp [getField]
  | cons p rest ih =>
    obtain ⟨k₀, v₀⟩ := p
    by_cases h : k₀ = k <;> simp [getField, h, ih]

theorem getField_optField (k' k : String) (v : Option String) :
    getField (optField k' v) k = if k' = k then v.map Json.str else none := by
  cases v with
  | none => simp [optField, getField]
  | some s => simp [optField, getField]

theorem getField_ite (p : Prop) [Decidable p] (l₁ l₂ : List (String × Json)) (k : String) :
    getField (if p then l₁ else l₂) k = if p then getField l₁ k else getField l₂ k := by
  split <;> rfl

theorem decodeStrings_map_str (l : List String) :
    decodeStrings (l.map Json.str) = some l := by
  induction l with
  | nil => rfl
  | cons a t ih => simp [decodeStrings, ih, asString]

/-! Per-key characterizations of `Client.fieldList`. -/

theorem fieldList_type (c : Client) :
    getField c.fieldList "type" = some (optStrJson c.typ) := by
  simp [Client.fieldList, getField_append, getField, getField_optField, getField_ite]

theorem fieldList_commands (c : Client) :
    getField c.fieldList "commands" =
      if c.commands.isEmpty then none
      else some (Json.arr (c.commands.map ClientCommand.toJson)) := by
  cases h : c.commands <;>
    simp [Client.fieldList, getField_append, getField, getField_optField, getField_ite, h]

theorem fieldList_fxa (c : Client) :
    getField c.fieldList "fxaDeviceId" = c.fxa_device_id.map Json.str := by
  cases h : c.fxa_device_id <;>
    simp [Client.fieldList, getField_append, getField, getField_optField, getField_ite, h]

theorem fieldList_version (c : Client) :
    getField c.fieldList "version" = c.version.map Json.str := by
  cases h : c.version <;>
    simp [Client.fieldList, getField_append, getField, getField_optField, getField_ite, h]

theorem fieldList_protocols (c : Client) :
    getField c.fieldList "protocols" =
      if c.protocols.isEmpty then none
      else some (Json.arr (c.protocols.map Json.str)) := by
  cases h : c.protocols <;>
    simp [Client.fieldList, getField_append, getField, getField_optField, getField_ite, h]

theorem fieldList_formfactor (c : Client) :
    getField c.fieldList "formfactor" = c.form_factor.map Json.str := by
  cases h : c.form_factor <;>
    simp [Client.fieldList, getField_append, getField, getField_optField, getField_ite, h]

theorem fieldList_os (c : Client) :
    getField c.fieldList "os" = c.os.map Json.str := by
  cases h : c.os <;>
    simp [Client.fieldList, getField_append, getField, getField_optField, getField_ite, h]

theorem fieldList_appPackage (c : Client) :
    getField c.fieldList "appPackage" = c.app_package.map Json.str := by
  cases h : c.app_package <;>
    simp [Client.fieldList, getField_append, getField, getField_optField, getField_ite, h]

theorem fieldList_application (c : Client) :
    getField c.fieldList "application" = c.application.map Json.str := by
  cases h : c.application <;>
    simp [Client.fieldList, getField_append, getField, getField_optField, getField_ite, h]

theorem fieldList_device (c : Client) :
    getField c.fieldList "device" = c.device.map Json.str := by
  cases h : c.device <;>
    simp [Client.fieldList, getField_append, getField, getField_optField, getField_ite, h]

/-- Inversion of `Client.fromJson`: a successful decode determines every
decoded component from the document's fields. -/
theorem Client.fromJson_inv (o : List (String × Json)) (c : Client)
    (h : Client.fromJson (Json.obj o) = some c) :
    decOptStr o "type" = some c.typ ∧
    decCmdList o "commands" = some c.commands ∧
    decOptStr o "fxaDeviceId" = some c.fxa_device_id ∧
    decOptStr o "version" = some c.version ∧
    decStrList o "protocols" = some c.protocols ∧
    decOptStr o "formfactor" = some c.form_factor ∧
    decOptStr o "os" = some c.os ∧
    decOptStr o "appPackage" = some c.app_package ∧
    decOptStr o "application" = some c.application ∧
    decOptStr o "device" = some c.device := by
  unfold Client.fromJson at h
  obtain ⟨idJ, hidJ, h⟩ := Option.bind_eq_some.mp h
  obtain ⟨i, hi, h⟩ := Option.bind_eq_some.mp h
  obtain ⟨nameJ, hnameJ, h⟩ := Option.bind_eq_some.mp h
  obtain ⟨n, hn, h⟩ := Option.bind_eq_some.mp h
  obtain ⟨typ, htyp, h⟩ := Option.bind_eq_some.mp h
  obtain ⟨cmds, hcmds, h⟩ := Option.bind_eq_some.mp h
  obtain ⟨fxa, hfxa, h⟩ := Option.bind_eq_some.mp h
  obtain ⟨ver, hver, h⟩ := Option.bind_eq_some.mp h
  obtain ⟨prot, hprot, h⟩ := Option.bind_eq_some.mp h
  obtain ⟨ff, hff, h⟩ := Option.bind_eq_some.mp h
  obtain ⟨os, hos, h⟩ := Option.bind_eq_some.mp h
  obtain ⟨ap, hap, h⟩ := Option.bind_eq_some.mp h
  obtain ⟨app, happ, h⟩ := Option.bind_eq_some.mp h
  obtain ⟨dev, hdev, h⟩ := Option.bind_eq_some.mp h
  cases h
  exact ⟨htyp, hcmds, hfxa, hver, hprot, hff, hos, hap, happ, hdev⟩

/-! ## Claims about the wire records (C5, C9) -/

/-- Claim C9: for every Client Command, serialization always emits `args`
as an array of strings — an empty array when the command has no
arguments — never omitting the field and never emitting null; unknown
command names and an optional `flow_id` round-trip unchanged (`flowId`
omitted when absent). -/
theorem C9_command_args_always_array (c : ClientCommand) :
    getField (objFields (ClientCommand.toJson c)) "args"
        = some (Json.arr (c.args.map Json.str)) ∧
    ClientCommand.fromJson (ClientCommand.toJson c) = some c ∧
    (c.flow_id = none → getField (objFields (ClientCommand.toJson c)) "flowId" = none) := by
  obtain ⟨nm, args, flow⟩ := c
  refine ⟨?_, ?_, ?_⟩
  · cases flow <;>
      simp [ClientCommand.toJson, ClientCommand.fields, objFields, getField_append,
        getField, getField_optField]
  · cases flow <;>
      simp [ClientCommand.toJson, ClientCommand.fromJson, ClientCommand.fields, objFields,
        getField_append, getField, getField_optField, decStrList, decOptStr, asString,
        asStringArray, decodeStrings_map_str]
  · intro hf
    cases hf
    simp [ClientCommand.toJson, ClientCommand.fields, objFields, getField_append,
      getField, getField_optField, optField]

/-- A Client Record document with no `type` field (and none of the other
optional fields). -/
def c5Doc : Json := Json.obj [("id", Json.str "deadbeef"), ("name", Json.str "box")]

/-- Claim C5 is false as stated: decoding a Client Record whose `type`
field is absent and re-encoding it emits `"type": null` — the `typ`
field of the Rust struct has no `skip_serializing_if` attribute, so the
absent field is materialized as null on write. -/
theorem C5_counterexample :
    getField (objFields c5Doc) "type" = none ∧
    (Client.fromJson c5Doc).map Client.toJson
      = some (Json.obj [("id", Json.str "deadbeef"), ("name", Json.str "box"),
          ("type", Json.null)]) :=
  ⟨rfl, rfl⟩

/-- Claim C5 (amended): decoding then re-encoding a Client Record keeps
every optional/legacy field other than `type` (`fxaDeviceId`, `version`,
`protocols`, `formfactor`, `os`, `appPackage`, `application`, `device`)
absent when it was absent on read, omits `commands` when empty and emits
it as an array when non-empty; `type`, by contrast, is always emitted,
as `null` when it was absent on read. -/
theorem C5_amended_round_trip (o : List (String × Json)) (c : Client)
    (h : Client.fromJson (Json.obj o) = some c) :
    (getField o "type" = none →
      getField (objFields (Client.toJson c)) "type" = some Json.null) ∧
    (getField o "commands" = none →
      getField (objFields (Client.toJson c)) "commands" = none) ∧
    (c.commands ≠ [] →
      getField (objFields (Client.toJson c)) "commands"
        = some (Json.arr (c.commands.map ClientCommand.toJson))) ∧
    (getField o "fxaDeviceId" = none →
      getField (objFields (Client.toJson c)) "fxaDeviceId" = none) ∧
    (getField o "version" = none →
      getField (objFields (Client.toJson c)) "version" = none) ∧
    (getField o "protocols" = none →
      getField (objFields (Client.toJson c)) "protocols" = none) ∧
    (getField o "formfactor" = none →
      getField (objFields (Client.toJson c)) "formfactor" = none) ∧
    (getField o "os" = none →
      getField (objFields (Client.toJson c)) "os" = none) ∧
    (getField o "appPackage" = none →
      getField (objFields (Client.toJson c)) "appPackage" = none) ∧
    (getField o "application" = none →
      getField (objFields (Client.toJson c)) "application" = none) ∧
    (getField o "device" = none →
      getField (objFields (Client.toJson c)) "device" = none) := by
  obtain ⟨h1, h2, h3, h4, h5, h6, h7, h8, h9, h10⟩ := Client.fromJson_inv o c h
  refine ⟨?_, ?_, ?_, ?_, ?_, ?_, ?_, ?_, ?_, ?_, ?_⟩
  · intro ha
    have hn : c.typ = none := by simpa [decOptStr, ha] using h1.symm
    simp [Client.toJson, objFields, fieldList_type, hn, optStrJson]
  · intro ha
    have hn : c.commands = [] := by simpa [decCmdList, ha] using h2.symm
    simp [Client.toJson, objFields, fieldList_commands, hn]
  · intro hne
    cases hc : c.commands with
    | nil => exact absurd hc hne
    | cons x t => simp [Client.toJson, objFields, fieldList_commands, hc]
  · intro ha
    have hn : c.fxa_device_id = none := by simpa [decOptStr, ha] using h3.symm
    simp [Client.toJson, objFields, fieldList_fxa, hn]
  · intro ha
    have hn : c.version = none := by simpa [decOptStr, ha] using h4.symm
    simp [Client.toJson, objFields, fieldList_version, hn]
  · intro ha
    have hn : c.protocols = [] := by simpa [decStrList, ha] using h5.symm
    simp [Client.toJson, objFields, fieldList_protocols, hn]
  · intro ha
    have hn : c.form_factor = none := by simpa [decOptStr, ha] using h6.symm
    simp [Client.toJson, objFields, fieldList_formfactor, hn]
  · intro ha
    have hn : c.os = none := by simpa [decOptStr, ha] using h7.symm
    simp [Client.toJson, objFields, fieldList_os, hn]
  · intro ha
    have hn : c.app_package = none := by simpa [decOptStr, ha] using h8.symm
    simp [Client.toJson, objFields, fieldList_appPackage, hn]
  · intro ha
    have hn : c.application = none := by simpa [decOptStr, ha] using h9.symm
    simp [Client.toJson, objFields, fieldList_application, hn]
  · intro ha
    have hn : c.device = none := by simpa [decOptStr, ha] using h10.symm
    simp [Client.toJson, objFields, fieldList_device, hn]

/-- A Client Record document with a non-empty command list and no
optional fields, together with its decoded form. -/
def c5WitFields : List (String × Json) :=
  [("id", Json.str "a"), ("name", Json.str "b"),
   ("commands", Json.arr [Json.obj [("command", Json.str "wipeEngine"),
     ("args", Json.arr [Json.str "bookmarks"])]])]

def c5WitClient : Client :=
  ⟨"a", "b", none, [⟨"wipeEngine", ["bookmarks"], none⟩],
   none, none, [], none, none, none, none, none⟩

theorem C5_amended_round_trip_witness :
    getField (objFields (Client.toJson c5WitClient)) "commands"
      = some (Json.arr (c5WitClient.commands.map ClientCommand.toJson)) :=
  (C5_amended_round_trip c5WitFields c5WitClient rfl).2.2.1 (by decide)

/-! ## The sync manager (manager.rs)

`Weak<PlacesApi>` / `Weak<Mutex<PasswordEngine>>` handles are embedded
as `Option`s: `none` means the owning `Arc` has been dropped, `some`
that `upgrade()` yields a live handle. A Rust panic (from `expect` or
`assert!`) is the distinguished `Outcome.panicked` result, which unwinds
past the function rather than returning an error value. -/

/-- Error kinds reachable from `manager.rs`: the `ErrorKind` variants it
constructs, the two external parse failures it propagates with `?`, and
an underlying store operation's failure (also propagated with `?`).
There is no lock-integrity variant: a poisoned mutex never becomes an
error value in this code. -/
inductive MgrError where
  | UnknownEngine (name : String)
  | UnsupportedFeature (name : String)
  | ConnectionClosed (name : String)
  | KeyParseError
  | UrlParseError
  | StoreFailure (msg : String)
  deriving DecidableEq, Repr

/-- The observable outcome of a Rust call: an `Ok` value, an `Err`, or a
panic that unwinds past the caller. -/
inductive Outcome (α : Type) where
  | ok : α → Outcome α
  | err : MgrError → Outcome α
  | panicked : String → Outcome α
  deriving DecidableEq, Repr

/-- The externally-owned places store (`PlacesApi`) as the manager
observes it: the `*Fails` flags give the outcome of each underlying
(external) operation when invoked, the remaining fields record the side
effects the manager has driven. -/
structure PlacesApi where
  wipeBookmarksFails : Bool
  resetBookmarksFails : Bool
  resetHistoryFails : Bool
  openSyncConnFails : Bool
  bookmarksWiped : Bool
  bookmarksWasReset : Bool
  historyWasReset : Bool
  deriving DecidableEq, Repr

/-- The externally-owned logins store (`PasswordEngine`). -/
structure PasswordEngine where
  wipeFails : Bool
  resetFails : Bool
  wiped : Bool
  wasReset : Bool
  deriving DecidableEq, Repr

/-- `Mutex<PasswordEngine>`: the engine together with its poison bit. -/
structure LoginsMutex where
  poisoned : Bool
  engine : PasswordEngine
  deriving DecidableEq, Repr

/-- `sync15::MemoryCachedState` is opaque to the manager; only identity
matters, so it is embedded as a version counter (`Default` gives
version 0). -/
structure MemoryCachedState where
  version : Nat
  deriving DecidableEq, Repr, Inhabited

structure SyncManager where
  mem_cached_state : Option MemoryCachedState
  places : Option PlacesApi
  logins : Option LoginsMutex
  deriving DecidableEq, Repr

def LOGINS_ENGINE : String := "passwords"
def HISTORY_ENGINE : String := "history"
def BOOKMARKS_ENGINE : String := "bookmarks"

/-- `SyncManager::new`. -/
def SyncManager.new : SyncManager :=
  { mem_cached_state := none, places := none, logins := none }

/-- `SyncManager::wipe` (manager.rs 43-68). Matches only `"logins"` and
`"bookmarks"`; everything else — `"history"` included — falls to the
`UnknownEngine` arm. The logins arm locks the mutex with
`.expect("poisoned logins mutex")`. -/
def SyncManager.wipe (m : SyncManager) (engine : String) : Outcome SyncManager :=
  if engine = "logins" then
    match m.logins with
    | some l =>
      if l.poisoned then .panicked "poisoned logins mutex"
      else if l.engine.wipeFails then .err (.StoreFailure "logins wipe failed")
      else .ok { m with logins := some { l with engine := { l.engine with wiped := true } } }
    | none => .err (.ConnectionClosed engine)
  else if engine = "bookmarks" then
    match m.places with
    | some p =>
      if p.wipeBookmarksFails then .err (.StoreFailure "places wipe_bookmarks failed")
      else .ok { m with places := some { p with bookmarksWiped := true } }
    | none => .err (.ConnectionClosed engine)
  else .err (.UnknownEngine engine)

/-- The places half of `wipe_all`:
`if let Some(places) = self.places.upgrade() { places.wipe_bookmarks()?; }`. -/
def wipePlacesStep (m : SyncManager) : Outcome SyncManager :=
  match m.places with
  | some p =>
    if p.wipeBookmarksFails then .err (.StoreFailure "places wipe_bookmarks failed")
    else .ok { m with places := some { p with bookmarksWiped := true } }
  | none => .ok m

/-- `SyncManager::wipe_all` (manager.rs 70-83): wipes logins when live
(propagating its error with `?`), then bookmarks when live (same), and
silently skips dropped stores. -/
def SyncManager.wipe_all (m : SyncManager) : Outcome SyncManager :=
  match m.logins with
  | some l =>
    if l.poisoned then .panicked "poisoned logins mutex"
    else if l.engine.wipeFails then .err (.StoreFailure "logins wipe failed")
    else
      wipePlacesStep
        { m with logins := some { l with engine := { l.engine with wiped := true } } }
  | none => wipePlacesStep m

/-- The places half of `disconnect`: resets bookmarks and history,
logging (not propagating) each failure; warns when places is gone. -/
def disconnectPlaces (m : SyncManager) (log : List String) :
    Outcome (SyncManager × List String) :=
  match m.places with
  | some p =>
    let s1 :=
      if p.resetBookmarksFails then (p, log ++ ["Failed to reset bookmarks"])
      else ({ p with bookmarksWasReset := true }, log)
    let s2 :=
      if s1.1.resetHistoryFails then (s1.1, s1.2 ++ ["Failed to reset history"])
      else ({ s1.1 with historyWasReset := true }, s1.2)
    .ok ({ m with places := some s2.1 }, s2.2)
  | none =>
    .ok (m, log ++ ["Unable to wipe places, be sure to call set_places before disconnect if this is surprising"])

/-- `SyncManager::disconnect` (manager.rs 132-156): best-effort reset of
both stores; every per-engine failure is logged, none is returned; the
returned list is the log output. The logins lock still panics when
poisoned (`expect`). -/
def SyncManager.disconnect (m : SyncManager) : Outcome (SyncManager × List String) :=
  match m.logins with
  | some l =>
    if l.poisoned then .panicked "poisoned logins mutex"
    else if l.engine.resetFails then
      disconnectPlaces m ["Failed to reset logins"]
    else
      disconnectPlaces
        { m with logins := some { l with engine := { l.engine with wasReset := true } } } []
  | none =>
    disconnectPlaces m
      ["Unable to wipe logins, be sure to call set_logins before disconnect if this is surprising"]

/-! ## The sync pass (manager.rs 158-311) -/

/-- `msg_types::SyncParams`, as `SyncManager::sync` consumes it. -/
structure SyncParams where
  sync_all_engines : Bool
  engines_to_sync : List String
  acct_sync_key : String
  acct_tokenserver_url : String
  acct_access_token : String
  acct_key_id : String
  engines_to_change_state : List (String × Bool)
  persisted_state : Option String
  deriving DecidableEq, Repr

/-- `sync15::ServiceStatus` (external; the variants are fixed by the
`From` impl in manager.rs 257-270). -/
inductive ServiceStatus15 where
  | Ok | NetworkError | ServiceError | AuthenticationError | BackedOff | Interrupted | OtherError
  deriving DecidableEq, Repr

/-- `msg_types::ServiceStatus`, the public status code. -/
inductive ServiceStatus where
  | Ok | NetworkError | ServiceError | AuthError | BackedOff | OtherError
  deriving DecidableEq, Repr

/-- `impl From<sync15::ServiceStatus> for ServiceStatus`
(manager.rs 257-270). -/
def serviceStatusFrom : ServiceStatus15 → ServiceStatus
  | .Ok => .Ok
  | .NetworkError => .NetworkError
  | .ServiceError => .ServiceError
  | .AuthenticationError => .AuthError
  | .BackedOff => .BackedOff
  | .Interrupted => .OtherError
  | .OtherError => .OtherError

/-- `msg_types::SyncResult`, as `SyncManager::sync` builds it
(manager.rs 244-253): `results` maps each failed engine to its error
message — engines that succeeded are absent. -/
structure SyncResult where
  status : ServiceStatus
  results : List (String × String)
  have_declined : Bool
  declined : List String
  next_sync_allowed_at : Option Nat
  persisted_state : String
  telemetry_json : Option String
  deriving DecidableEq, Repr

/-- Modelled from the spec: the outcomes of everything outside the
staged sources that one pass consumes — credential parsing
(`KeyBundle::from_ksync_base64`, `url::Url::parse`), the device-registry
(clients) engine's single atomic `sync()` (clients/engine.rs is not
among the staged sources), each selected store adapter's outcome inside
`sync15::sync_all_stores` (failure message, or absent for success), the
aggregate status the `sync15` driver derives when the callback
succeeds, and the updated cached-state values the driver leaves
behind. -/
structure Env where
  keyParseOk : Bool
  urlParseOk : Bool
  clientsSyncOk : Bool
  storeFailures : List (String × String)
  driverStatus : ServiceStatus15
  memStateOut : MemoryCachedState
  diskStateOut : Option String
  telemetryOut : String
  deriving DecidableEq, Repr

/-- Modelled from the spec: `sync15::sync_all_stores` runs each selected
store adapter independently, in order, recording per-store success or
the failure message; one store's failure does not stop the others. -/
def sync_all_stores (stores : List String) (env : Env) :
    List (String × Option String) :=
  stores.map fun n => (n, List.lookup n env.storeFailures)

/-- manager.rs 289-311: the pass callback handed to the driver — sync
the clients (device-registry) engine first; its failure aborts the
callback with `?` before any store adapter runs; otherwise run all the
stores. -/
def sync_all_stores_with_clients (stores : List String) (env : Env) :
    Except String (List (String × Option String)) :=
  if env.clientsSyncOk then .ok (sync_all_stores stores env)
  else .error "clients engine sync failed"

/-- What the driver hands back to `SyncManager::sync`. -/
structure DriverOutput where
  service_status : ServiceStatus15
  engine_results : List (String × Option String)
  telemetry : String
  deriving DecidableEq, Repr

/-- Modelled from the spec: `sync15::sync_multiple_with_params` invokes
the callback with the selected stores; a callback error is caught and
becomes a failed pass with no per-store result recorded; on success the
aggregate status comes from the (external) protocol interaction. The
driver replaces the memory- and disk-cached state it was lent. -/
def sync_multiple_with_params (stores : List String) (env : Env)
    (mem : MemoryCachedState) (disk : Option String) :
    DriverOutput × MemoryCachedState × Option String :=
  match sync_all_stores_with_clients stores env, mem, disk with
  | .ok results, _, _ =>
    ({ service_status := env.driverStatus, engine_results := results,
       telemetry := env.telemetryOut }, env.memStateOut, env.diskStateOut)
  | .error _, _, _ =>
    ({ service_status := .OtherError, engine_results := [],
       telemetry := env.telemetryOut }, env.memStateOut, env.diskStateOut)

/-- `check_engine_list` (manager.rs 276-287): scans the caller's list in
order; the first name outside {bookmarks, history, passwords} fails with
`UnknownEngine`, the first catalog name absent from `have_engines` fails
with `UnsupportedFeature`. -/
def check_engine_list (list : List String) (have_engines : List String) :
    Except MgrError Unit :=
  match list with
  | [] => .ok ()
  | e :: rest =>
    if e = "bookmarks" ∨ e = "history" ∨ e = "passwords" then
      if have_engines.contains e then check_engine_list rest have_engines
      else .error (.UnsupportedFeature e)
    else .error (.UnknownEngine e)

/-- `should_sync` (manager.rs 272-274). -/
def should_sync (p : SyncParams) (engine : String) : Bool :=
  p.sync_all_engines || p.engines_to_sync.contains engine

/-- The `have_engines` vector built at the top of `sync`
(manager.rs 161-168): history and bookmarks when places is live, then
passwords when logins is live. -/
def haveEngines (m : SyncManager) : List String :=
  (if m.places.isSome then [HISTORY_ENGINE, BOOKMARKS_ENGINE] else [])
    ++ (if m.logins.isSome then [LOGINS_ENGINE] else [])

/-- Whether `open_sync_connection()` on the live places store succeeds
(the `.ok()` at manager.rs 183 discards the error). -/
def placesOpenOk (m : SyncManager) : Bool :=
  match m.places with
  | some p => !p.openSyncConnFails
  | none => false

/-- The tail of `SyncManager::sync` once the logins mutex has been
locked (or found dropped): take the memory cache (manager.rs 192), build
the stores vector in source order (history, bookmarks, then logins,
manager.rs 196-210) with its `assert!(logins_sync, "Should have already
checked")`, run the driver, and build the `SyncResult`
(manager.rs 220-253). `loginsLocked` records whether line 187 produced a
live guard; `places_conn` whether a places sync connection is open. The
updated memory-cached state the driver hands back is dropped — nothing
stores it back into the manager. -/
def syncRun (m : SyncManager) (params : SyncParams) (env : Env)
    (places_conn : Bool) (loginsLocked : Bool) :
    Outcome SyncResult × SyncManager × List String :=
  let logins_sync := should_sync params LOGINS_ENGINE
  let bookmarks_sync := should_sync params BOOKMARKS_ENGINE
  let history_sync := should_sync params HISTORY_ENGINE
  let mem := m.mem_cached_state.getD default
  let m1 : SyncManager := { m with mem_cached_state := none }
  let disk := params.persisted_state
  let stores :=
    if places_conn then
      (if history_sync then [HISTORY_ENGINE] else [])
        ++ (if bookmarks_sync then [BOOKMARKS_ENGINE] else [])
    else []
  if loginsLocked && !logins_sync then
    (.panicked "Should have already checked", m1, stores)
  else
    let stores := stores ++ (if loginsLocked then [LOGINS_ENGINE] else [])
    let out := sync_multiple_with_params stores env mem disk
    let status := serviceStatusFrom out.1.service_status
    let results := out.1.engine_results.filterMap fun p => p.2.map fun msg => (p.1, msg)
    (.ok { status := status, results := results, have_declined := false, declined := [],
           next_sync_allowed_at := none, persisted_state := out.2.2.getD "",
           telemetry_json := some out.1.telemetry }, m1, stores)

/-- `SyncManager::sync` (manager.rs 158-254), in source order: engine
list validation, credential parsing, the places connection (the
`.expect("already checked")` panic when places is gone but wanted, the
discarded open failure), the logins lock (`.expect("poisoned mutex")`),
then the pass body. The second component is the manager's state after
the call, the third the stores vector handed to the driver. -/
def SyncManager.sync (m : SyncManager) (params : SyncParams) (env : Env) :
    Outcome SyncResult × SyncManager × List String :=
  match check_engine_list params.engines_to_sync (haveEngines m) with
  | .error e => (.err e, m, [])
  | .ok _ =>
    if !env.keyParseOk then (.err .KeyParseError, m, [])
    else if !env.urlParseOk then (.err .UrlParseError, m, [])
    else
      let bookmarks_sync := should_sync params BOOKMARKS_ENGINE
      let history_sync := should_sync params HISTORY_ENGINE
      if (bookmarks_sync || history_sync) && m.places.isNone then
        (.panicked "already checked", m, [])
      else
        let places_conn := (bookmarks_sync || history_sync) && placesOpenOk m
        match m.logins with
        | some l =>
          if l.poisoned then (.panicked "poisoned mutex", m, [])
          else syncRun m params env places_conn true
        | none => syncRun m params env places_conn false

/-! ## Concrete fixtures -/

def placesLive : PlacesApi :=
  ⟨false, false, false, false, false, false, false⟩

def placesOpenFailing : PlacesApi :=
  ⟨false, false, false, true, false, false, false⟩

def loginsLive : LoginsMutex :=
  ⟨false, ⟨false, false, false, false⟩⟩

def loginsPoisonedMutex : LoginsMutex :=
  ⟨true, ⟨false, false, false, false⟩⟩

def loginsWipeFailing : LoginsMutex :=
  ⟨false, ⟨true, false, false, false⟩⟩

def baseParams : SyncParams :=
  { sync_all_engines := false, engines_to_sync := [], acct_sync_key := "kSync",
    acct_tokenserver_url := "https://token.example/1.0", acct_access_token := "tok",
    acct_key_id := "kid", engines_to_change_state := [], persisted_state := none }

def envOkAll : Env :=
  { keyParseOk := true, urlParseOk := true, clientsSyncOk := true,
    storeFailures := [], driverStatus := .Ok, memStateOut := ⟨7⟩,
    diskStateOut := some "updated-disk-state", telemetryOut := "telemetry-json" }

/-! ## Claims about the lifecycle operations (C4, C6, C7) -/

/-- Claim C4 is false as stated: on a poisoned logins lock, `wipe`
panics (`expect("poisoned logins mutex")`) — it terminates the host
process instead of surfacing a distinct lock-integrity error; no `err`
value is produced. -/
theorem C4_counterexample :
    SyncManager.wipe ⟨none, none, some loginsPoisonedMutex⟩ "logins"
        = .panicked "poisoned logins mutex" ∧
    ¬ ∃ er, SyncManager.wipe ⟨none, none, some loginsPoisonedMutex⟩ "logins"
        = Outcome.err er := by
  refine ⟨rfl, ?_⟩
  rintro ⟨er, h⟩
  rw [show SyncManager.wipe ⟨none, none, some loginsPoisonedMutex⟩ "logins"
      = .panicked "poisoned logins mutex" from rfl] at h
  exact Outcome.noConfusion h

/-- Claim C4 (amended): every operation that locks the logins mutex —
`wipe("logins")`, `wipe_all`, `disconnect`, and the lock taken inside a
`sync` pass that reaches it — panics via `expect` when the lock is
poisoned, terminating the process rather than surfacing a distinct
lock-integrity error (no such error kind exists in this code). -/
theorem C4_poisoned_lock_panics (m : SyncManager) (l : LoginsMutex)
    (hl : m.logins = some l) (hp : l.poisoned = true) :
    m.wipe "logins" = .panicked "poisoned logins mutex" ∧
    m.wipe_all = .panicked "poisoned logins mutex" ∧
    m.disconnect = .panicked "poisoned logins mutex" ∧
    (∀ p env, check_engine_list p.engines_to_sync (haveEngines m) = .ok () →
      env.keyParseOk = true → env.urlParseOk = true →
      ((should_sync p BOOKMARKS_ENGINE || should_sync p HISTORY_ENGINE)
          && m.places.isNone) = false →
      m.sync p env = (.panicked "poisoned mutex", m, [])) := by
  refine ⟨?_, ?_, ?_, ?_⟩
  · simp [SyncManager.wipe, hl, hp]
  · simp [SyncManager.wipe_all, hl, hp]
  · simp [SyncManager.disconnect, hl, hp]
  · intro p env hc hk hu hpl
    unfold SyncManager.sync
    rw [hc]
    simp [hk, hu, hpl, hl, hp]

theorem C4_poisoned_lock_panics_witness :
    SyncManager.wipe ⟨none, none, some loginsPoisonedMutex⟩ "logins"
        = .panicked "poisoned logins mutex" :=
  (C4_poisoned_lock_panics ⟨none, none, some loginsPoisonedMutex⟩
    loginsPoisonedMutex rfl rfl).1

/-- Claim C6 is false as stated: `"history"` is in the claim's fixed
catalog, yet `wipe("history")` on a manager whose places store is live
falls to the catch-all arm and fails with `UnknownEngine("history")`. -/
theorem C6_counterexample :
    SyncManager.wipe ⟨none, some placesLive, none⟩ "history"
        = .err (.UnknownEngine "history") ∧
    "history" ∈ ["credentials", "bookmarks", "history"] := by
  exact ⟨rfl, by decide⟩

/-- Claim C6 (amended): `wipe` fails with `UnknownEngine` exactly when
the name is outside {logins, bookmarks} — in particular `"history"`,
though in the spec's catalog, is not wipeable; it fails with
`ConnectionClosed` (store disconnected) when the named engine's owner
has been dropped; otherwise (live store, clean lock, underlying wipe
succeeding) it wipes that engine's data. -/
theorem C6_wipe_catalog (m : SyncManager) (e : String) :
    (¬ (e = "logins" ∨ e = "bookmarks") ↔ m.wipe e = .err (.UnknownEngine e)) ∧
    (e = "logins" → m.logins = none → m.wipe e = .err (.ConnectionClosed e)) ∧
    (e = "bookmarks" → m.places = none → m.wipe e = .err (.ConnectionClosed e)) ∧
    (∀ l, e = "logins" → m.logins = some l → l.poisoned = false →
      l.engine.wipeFails = false →
      m.wipe e = .ok { m with
        logins := some { l with engine := { l.engine with wiped := true } } }) ∧
    (∀ pl, e = "bookmarks" → m.places = some pl → pl.wipeBookmarksFails = false →
      m.wipe e = .ok { m with places := some { pl with bookmarksWiped := true } }) := by
  refine ⟨⟨?_, ?_⟩, ?_, ?_, ?_, ?_⟩
  · intro h
    have h1 : e ≠ "logins" := fun hc => h (Or.inl hc)
    have h2 : e ≠ "bookmarks" := fun hc => h (Or.inr hc)
    simp [SyncManager.wipe, h1, h2]
  · intro hu
    rcases Decidable.em (e = "logins" ∨ e = "bookmarks") with hor | hor
    · exfalso
      rcases hor with h1 | h1 <;> subst h1
      · unfold SyncManager.wipe at hu
        cases hml : m.logins with
        | none => simp [hml] at hu
        | some l =>
          cases hpo : l.poisoned <;> cases hwf : l.engine.wipeFails <;>
            simp [hml, hpo, hwf] at hu
      · unfold SyncManager.wipe at hu
        cases hmp : m.places with
        | none => simp [hmp] at hu
        | some pl =>
          cases hwf : pl.wipeBookmarksFails <;> simp [hmp, hwf] at hu
    · exact hor
  · intro he hn
    subst he
    simp [SyncManager.wipe, hn]
  · intro he hn
    subst he
    simp [SyncManager.wipe, hn]
  · intro l he hl hpo hwf
    subst he
    simp [SyncManager.wipe, hl, hpo, hwf]
  · intro pl he hp hwf
    subst he
    simp [SyncManager.wipe, hp, hwf]

/-- Claim C7 is false as stated: when the live logins store's underlying
wipe fails, `wipe_all` propagates that failure with `?` instead of
returning a success-shaped result. -/
theorem C7_counterexample :
    SyncManager.wipe_all ⟨none, none, some loginsWipeFailing⟩
        = .err (.StoreFailure "logins wipe failed") ∧
    ¬ ∃ m2, SyncManager.wipe_all ⟨none, none, some loginsWipeFailing⟩
        = Outcome.ok m2 := by
  refine ⟨rfl, ?_⟩
  rintro ⟨m2, h⟩
  rw [show SyncManager.wipe_all ⟨none, none, some loginsWipeFailing⟩
      = .err (.StoreFailure "logins wipe failed") from rfl] at h
  exact Outcome.noConfusion h

/-- Claim C7 (amended): `wipe_all` silently skips disconnected engines
and succeeds with zero stores registered or when every connected
engine's underlying wipe succeeds, but it propagates a connected
engine's wipe failure as an error; `disconnect` never returns an error —
per-engine reset failures are swallowed and logged (the log line is
returned), even with zero stores registered (a poisoned lock excepted,
which panics — see C4). -/
theorem C7_wipe_all_disconnect_degrade (m : SyncManager) :
    (m.logins = none → m.places = none → m.wipe_all = .ok m) ∧
    (∀ l, m.logins = some l → l.poisoned = false → l.engine.wipeFails = false →
      (∀ pl, m.places = some pl → pl.wipeBookmarksFails = false) →
      ∃ m2, m.wipe_all = .ok m2) ∧
    (m.logins = none → (∀ pl, m.places = some pl → pl.wipeBookmarksFails = false) →
      ∃ m2, m.wipe_all = .ok m2) ∧
    ((∀ l, m.logins = some l → l.poisoned = false) →
      ∃ m2 logs, m.disconnect = .ok (m2, logs)) ∧
    (∀ l, m.logins = some l → l.poisoned = false → l.engine.resetFails = true →
      ∃ m2 logs, m.disconnect = .ok (m2, logs) ∧ "Failed to reset logins" ∈ logs) := by
  refine ⟨?_, ?_, ?_, ?_, ?_⟩
  · intro hl hp
    simp [SyncManager.wipe_all, wipePlacesStep, hl, hp]
  · intro l hl hpo hwf hplaces
    cases hmp : m.places with
    | none =>
      simp [SyncManager.wipe_all, wipePlacesStep, hl, hpo, hwf, hmp]
    | some pl =>
      have hw := hplaces pl hmp
      simp [SyncManager.wipe_all, wipePlacesStep, hl, hpo, hwf, hmp, hw]
  · intro hl hplaces
    cases hmp : m.places with
    | none => simp [SyncManager.wipe_all, wipePlacesStep, hl, hmp]
    | some pl =>
      have hw := hplaces pl hmp
      simp [SyncManager.wipe_all, wipePlacesStep, hl, hmp, hw]
  · intro hpoison
    cases hml : m.logins with
    | none =>
      cases hmp : m.places with
      | none => simp [SyncManager.disconnect, disconnectPlaces, hml, hmp]
      | some pl =>
        cases hb : pl.resetBookmarksFails <;> cases hh : pl.resetHistoryFails <;>
          simp [SyncManager.disconnect, disconnectPlaces, hml, hmp, hb, hh]
    | some l =>
      have hpo := hpoison l hml
      cases hrf : l.engine.resetFails with
      | false =>
        cases hmp : m.places with
        | none =>
          simp [SyncManager.disconnect, disconnectPlaces, hml, hpo, hrf, hmp]
        | some pl =>
          cases hb : pl.resetBookmarksFails <;> cases hh : pl.resetHistoryFails <;>
            simp [SyncManager.disconnect, disconnectPlaces, hml, hpo, hrf, hmp, hb, hh]
      | true =>
        cases hmp : m.places with
        | none =>
          simp [SyncManager.disconnect, disconnectPlaces, hml, hpo, hrf, hmp]
        | some pl =>
          cases hb : pl.resetBookmarksFails <;> cases hh : pl.resetHistoryFails <;>
            simp [SyncManager.disconnect, disconnectPlaces, hml, hpo, hrf, hmp, hb, hh]
  · intro l hml hpo hrf
    cases hmp : m.places with
    | none =>
      simp only [SyncManager.disconnect, disconnectPlaces, hml, hpo, hrf, hmp,
        Bool.false_eq_true, if_false, if_true, ite_true, ite_false]
      exact ⟨_, _, rfl, by simp⟩
    | some pl =>
      cases hb : pl.resetBookmarksFails <;> cases hh : pl.resetHistoryFails <;>
        · simp only [SyncManager.disconnect, disconnectPlaces, hml, hpo, hrf, hmp, hb, hh,
            Bool.false_eq_true, if_false, if_true, ite_true, ite_false]
          exact ⟨_, _, rfl, by simp⟩

/-! ## Code-bug witnesses (C3, C10) -/

/-- The manager state, parameters and environment of a pass that
completes successfully while a memory-cached state from an earlier pass
is present. -/
def c3Mgr : SyncManager :=
  { mem_cached_state := some ⟨5⟩, places := none, logins := none }

/-- Claim C3 is contradicted by the code: `sync` takes the in-memory
cached state (`self.mem_cached_state.take()`), lends it to the driver,
and never stores the updated version back — after a completed pass the
manager holds `none`, so the next pass starts from the default empty
state instead of the previous pass's updated version. The third
conjunct shows the driver did hand back an updated state distinct from
the default one. -/
theorem C3_mem_cache_dropped :
    (∃ r, (c3Mgr.sync baseParams envOkAll).1 = Outcome.ok r) ∧
    (c3Mgr.sync baseParams envOkAll).2.1.mem_cached_state = none ∧
    envOkAll.memStateOut ≠ (default : MemoryCachedState) ∧
    c3Mgr.mem_cached_state ≠ none := by
  refine ⟨⟨_, rfl⟩, rfl, by decide, by decide⟩

/-- A pass in which places and logins are both live and the caller asks
for bookmarks only: engine-list validation succeeds, yet the
unconditional logins lock at manager.rs 187 makes the
`assert!(logins_sync, "Should have already checked")` at line 208
fire. -/
def c10Mgr : SyncManager :=
  { mem_cached_state := none, places := some placesLive, logins := some loginsLive }

def c10Params : SyncParams :=
  { baseParams with engines_to_sync := ["bookmarks"] }

/-- Claim C10 is contradicted by the code: with logins registered and
live, `sync_all_engines = false` and `"passwords"` not requested, the
pass passes validation and then panics at the assertion — the logins
mutex is locked unconditionally at manager.rs 187, so the assert's
premise "should have already checked" is simply false. -/
theorem C10_assertion_fires :
    check_engine_list c10Params.engines_to_sync (haveEngines c10Mgr) = .ok () ∧
    should_sync c10Params LOGINS_ENGINE = false ∧
    c10Mgr.sync c10Params envOkAll
      = (.panicked "Should have already checked",
         { c10Mgr with mem_cached_state := none }, [BOOKMARKS_ENGINE]) :=
  ⟨rfl, rfl, rfl⟩

/-! ## Reaching the run phase (shared by C2 and C8) -/

/-- Under the hypotheses that validation and credential parsing succeed,
the places store is live whenever bookmarks or history is selected, and
the logins lock is not poisoned, `sync` reaches the pass body. -/
theorem sync_reach (m : SyncManager) (p : SyncParams) (env : Env)
    (hcheck : check_engine_list p.engines_to_sync (haveEngines m) = .ok ())
    (hkey : env.keyParseOk = true) (hurl : env.urlParseOk = true)
    (hplaces : ((should_sync p BOOKMARKS_ENGINE || should_sync p HISTORY_ENGINE)
        && m.places.isNone) = false)
    (hpoison : ∀ l, m.logins = some l → l.poisoned = false) :
    m.sync p env = syncRun m p env
      ((should_sync p BOOKMARKS_ENGINE || should_sync p HISTORY_ENGINE)
        && placesOpenOk m)
      m.logins.isSome := by
  unfold SyncManager.sync
  rw [hcheck]
  cases hml : m.logins with
  | none => simp [hkey, hurl, hplaces, hml]
  | some l =>
    have hp := hpoison l hml
    simp [hkey, hurl, hplaces, hml, hp]

/-- The pass body when the logins assertion does not fire: the stores
vector is history, bookmarks (when a places connection is open), then
logins (when locked); the driver runs on it; the updated memory-cached
state is dropped on the floor. -/
theorem syncRun_no_assert (m : SyncManager) (p : SyncParams) (env : Env)
    (pc ll : Bool) (h : (ll && !should_sync p LOGINS_ENGINE) = false) :
    syncRun m p env pc ll =
      (let stores :=
        (if pc then
          (if should_sync p HISTORY_ENGINE then [HISTORY_ENGINE] else [])
            ++ (if should_sync p BOOKMARKS_ENGINE then [BOOKMARKS_ENGINE] else [])
         else []) ++ (if ll then [LOGINS_ENGINE] else [])
       let out := sync_multiple_with_params stores env
         (m.mem_cached_state.getD default) p.persisted_state
       (.ok { status := serviceStatusFrom out.1.service_status,
              results := out.1.engine_results.filterMap fun q =>
                q.2.map fun msg => (q.1, msg),
              have_declined := false, declined := [], next_sync_allowed_at := none,
              persisted_state := out.2.2.getD "",
              telemetry_json := some out.1.telemetry },
        { m with mem_cached_state := none }, stores)) := by
  unfold syncRun
  simp [h]

/-! ## Claim C1: validation of the requested engine list -/

/-- Spec-side predicate (for the amended C1): a requested engine name is
invalid when it lies outside the catalog {bookmarks, history, passwords}
or names a catalog engine with no live handle. -/
def invalidName (have_engines : List String) (x : String) : Bool :=
  !(decide (x = "bookmarks" ∨ x = "history" ∨ x = "passwords"))
    || !have_engines.contains x

/-- Spec-side (for the amended C1): the first invalid name of the
caller's list, in list order. -/
def firstInvalid (list have_engines : List String) : Option String :=
  list.find? (invalidName have_engines)

/-- `check_engine_list` fails with precisely the first invalid name's
error: `UnsupportedFeature` when the name is in the catalog (but
unavailable), `UnknownEngine` otherwise. -/
theorem check_engine_list_firstInvalid (list have_engines : List String) (e : String)
    (h : firstInvalid list have_engines = some e) :
    check_engine_list list have_engines
      = .error (if e = "bookmarks" ∨ e = "history" ∨ e = "passwords"
                then .UnsupportedFeature e else .UnknownEngine e) := by
  induction list with
  | nil => simp [firstInvalid] at h
  | cons x rest ih =>
    by_cases hx : invalidName have_engines x = true
    · have hex : x = e := by
        simp only [firstInvalid] at h
        rw [List.find?_cons_of_pos _ hx] at h
        exact Option.some.inj h
      subst hex
      by_cases hk : x = "bookmarks" ∨ x = "history" ∨ x = "passwords"
      · have hm : x ∉ have_engines := by
          intro hmem
          have hfalse : invalidName have_engines x = false := by
            simp [invalidName, hk, hmem]
          rw [hfalse] at hx
          exact Bool.noConfusion hx
        simp [check_engine_list, hk, hm]
      · simp [check_engine_list, hk]
    · have hb2 : invalidName have_engines x = false := by
        simpa using hx
      have hfind : firstInvalid rest have_engines = some e := by
        simp only [firstInvalid] at h ⊢
        rw [List.find?_cons_of_neg _ hx] at h
        exact h
      have hkm : (¬x = "bookmarks" → ¬x = "history" → x = "passwords")
          ∧ x ∈ have_engines := by
        simpa [invalidName] using hb2
      have hk : x = "bookmarks" ∨ x = "history" ∨ x = "passwords" := by
        by_cases h1 : x = "bookmarks"
        · exact Or.inl h1
        · by_cases h2 : x = "history"
          · exact Or.inr (Or.inl h2)
          · exact Or.inr (Or.inr (hkm.1 h1 h2))
      rw [show check_engine_list (x :: rest) have_engines
          = check_engine_list rest have_engines from by
        simp [check_engine_list, hk, hkm.2]]
      exact ih hfind

def c1CexParams : SyncParams :=
  { baseParams with engines_to_sync := ["bookmarks", "zzz"] }

def envParseFails : Env := { envOkAll with keyParseOk := false }

/-- Claim C1 is false as stated: the list `["bookmarks", "zzz"]` on a
manager with no live store contains the unknown name `"zzz"`, yet the
pass fails with `UnsupportedFeature("bookmarks")` — validation scans in
list order, so the unknown name is never reached. (The environment has
credential parsing failing, confirming validation comes first.) -/
theorem C1_counterexample :
    SyncManager.sync SyncManager.new c1CexParams envParseFails
        = (.err (.UnsupportedFeature "bookmarks"), SyncManager.new, []) ∧
    "zzz" ∈ c1CexParams.engines_to_sync ∧
    ¬ ("zzz" = "bookmarks" ∨ "zzz" = "history" ∨ "zzz" = "passwords") ∧
    ¬ ∃ s, (SyncManager.sync SyncManager.new c1CexParams envParseFails).1
        = Outcome.err (.UnknownEngine s) := by
  refine ⟨rfl, by decide, by decide, ?_⟩
  rintro ⟨s, hs⟩
  rw [show (SyncManager.sync SyncManager.new c1CexParams envParseFails).1
      = Outcome.err (.UnsupportedFeature "bookmarks") from rfl] at hs
  injection hs with h2
  exact MgrError.noConfusion h2

/-- Claim C1 (amended): validation scans the caller's explicit list in
order and fails the pass with the error of the first invalid name —
`UnknownEngine` when it lies outside the catalog {bookmarks, history,
passwords}, `UnsupportedFeature` when it is a catalog name without a
live handle. This happens before credential parsing (the conclusion
holds for every environment, a failing parse included) and with zero
side effects: the manager is returned unchanged and no stores vector is
built. -/
theorem C1_validation_first_error (m : SyncManager) (p : SyncParams) (env : Env)
    (e : String) (h : firstInvalid p.engines_to_sync (haveEngines m) = some e) :
    m.sync p env
      = (.err (if e = "bookmarks" ∨ e = "history" ∨ e = "passwords"
               then .UnsupportedFeature e else .UnknownEngine e), m, []) := by
  have hc := check_engine_list_firstInvalid _ _ _ h
  unfold SyncManager.sync
  rw [hc]

def c1WitMgr : SyncManager :=
  { mem_cached_state := none, places := some placesLive, logins := none }

def c1WitParams : SyncParams :=
  { baseParams with engines_to_sync := ["history", "zzz"] }

theorem C1_validation_first_error_witness :
    SyncManager.sync c1WitMgr c1WitParams envParseFails
      = (.err (if "zzz" = "bookmarks" ∨ "zzz" = "history" ∨ "zzz" = "passwords"
               then .UnsupportedFeature "zzz" else .UnknownEngine "zzz"),
         c1WitMgr, []) :=
  C1_validation_first_error c1WitMgr c1WitParams envParseFails "zzz" (by decide)

/-! ## Claim C2: device-registry-first, failure fatal -/

/-- Claim C2: in every pass that reaches the run phase, the clients
(device-registry) engine syncs first and its failure aborts the callback
before any store adapter runs (first conjunct: the callback errors out
for every stores vector); the pass then reports a non-`Ok` status and
its per-engine results map is empty — no store that would have run after
the registry appears, as a success or at all. -/
theorem C2_clients_failure_fatal (m : SyncManager) (p : SyncParams) (env : Env)
    (hcheck : check_engine_list p.engines_to_sync (haveEngines m) = .ok ())
    (hkey : env.keyParseOk = true) (hurl : env.urlParseOk = true)
    (hplaces : ((should_sync p BOOKMARKS_ENGINE || should_sync p HISTORY_ENGINE)
        && m.places.isNone) = false)
    (hlogins : ∀ l, m.logins = some l →
      l.poisoned = false ∧ should_sync p LOGINS_ENGINE = true)
    (hclients : env.clientsSyncOk = false) :
    (∀ stores, sync_all_stores_with_clients stores env
        = .error "clients engine sync failed") ∧
    ∃ r, (m.sync p env).1 = Outcome.ok r ∧ r.status = ServiceStatus.OtherError ∧
      r.status ≠ ServiceStatus.Ok ∧ r.results = [] := by
  have hpoison : ∀ l, m.logins = some l → l.poisoned = false :=
    fun l hl => (hlogins l hl).1
  have hassert : (m.logins.isSome && !should_sync p LOGINS_ENGINE) = false := by
    cases hml : m.logins with
    | none => rfl
    | some l => simp [(hlogins l hml).2]
  have hrun := (sync_reach m p env hcheck hkey hurl hplaces hpoison).trans
    (syncRun_no_assert m p env _ _ hassert)
  refine ⟨fun stores => by simp [sync_all_stores_with_clients, hclients], ?_⟩
  rw [hrun]
  simp only [sync_multiple_with_params, sync_all_stores_with_clients, hclients,
    Bool.false_eq_true, if_false, ite_false]
  refine ⟨_, rfl, rfl, ?_, rfl⟩
  simp [serviceStatusFrom]

def c2Env : Env := { envOkAll with clientsSyncOk := false }

theorem C2_clients_failure_fatal_witness :
    (∀ stores, sync_all_stores_with_clients stores c2Env
        = .error "clients engine sync failed") ∧
    ∃ r, (SyncManager.sync SyncManager.new baseParams c2Env).1 = Outcome.ok r ∧
      r.status = ServiceStatus.OtherError ∧
      r.status ≠ ServiceStatus.Ok ∧ r.results = [] :=
  C2_clients_failure_fatal SyncManager.new baseParams c2Env rfl rfl rfl rfl
    (fun l hl => by cases hl) rfl

/-! ## Claim C8: a failed store-connection open degrades the pass -/

/-- Claim C8: when a requested places-backed store's sync connection
fails to open, that store is skipped for this pass only — the stores
vector contains neither bookmarks nor history, only the logins engine
when locked — the pass still completes with a `SyncResult` (not an
error), and the manager's places handle is unchanged, so the next pass
will try again. -/
theorem C8_open_failure_degrades (m : SyncManager) (p : SyncParams) (env : Env)
    (pl : PlacesApi)
    (hcheck : check_engine_list p.engines_to_sync (haveEngines m) = .ok ())
    (hkey : env.keyParseOk = true) (hurl : env.urlParseOk = true)
    (hpl : m.places = some pl) (hopen : pl.openSyncConnFails = true)
    (hwant : (should_sync p BOOKMARKS_ENGINE || should_sync p HISTORY_ENGINE) = true)
    (hlogins : ∀ l, m.logins = some l →
      l.poisoned = false ∧ should_sync p LOGINS_ENGINE = true) :
    (∃ r, (m.sync p env).1 = Outcome.ok r) ∧
    (m.sync p env).2.2 = (if m.logins.isSome then [LOGINS_ENGINE] else []) ∧
    BOOKMARKS_ENGINE ∉ (m.sync p env).2.2 ∧
    HISTORY_ENGINE ∉ (m.sync p env).2.2 ∧
    (m.sync p env).2.1.places = m.places := by
  have hpoison : ∀ l, m.logins = some l → l.poisoned = false :=
    fun l hl => (hlogins l hl).1
  have hassert : (m.logins.isSome && !should_sync p LOGINS_ENGINE) = false := by
    cases hml : m.logins with
    | none => rfl
    | some l => simp [(hlogins l hml).2]
  have hplaces : ((should_sync p BOOKMARKS_ENGINE || should_sync p HISTORY_ENGINE)
      && m.places.isNone) = false := by
    simp [hpl]
  have hpc : ((should_sync p BOOKMARKS_ENGINE || should_sync p HISTORY_ENGINE)
      && placesOpenOk m) = false := by
    simp [placesOpenOk, hpl, hopen]
  have hrun := (sync_reach m p env hcheck hkey hurl hplaces hpoison).trans
    (syncRun_no_assert m p env _ _ hassert)
  have hpo2 : placesOpenOk m = false := by
    cases hY : placesOpenOk m
    · rfl
    · rw [hwant, hY] at hpc
      simp at hpc
  rw [hrun]
  cases hml : m.logins <;>
    simp [hpo2, hml, BOOKMARKS_ENGINE, HISTORY_ENGINE, LOGINS_ENGINE]

def c8Mgr : SyncManager :=
  { mem_cached_state := none, places := some placesOpenFailing,
    logins := some loginsLive }

def c8Params : SyncParams := { baseParams with sync_all_engines := true }

theorem C8_open_failure_degrades_witness :
    (∃ r, (SyncManager.sync c8Mgr c8Params envOkAll).1 = Outcome.ok r) ∧
    (SyncManager.sync c8Mgr c8Params envOkAll).2.2
      = (if c8Mgr.logins.isSome then [LOGINS_ENGINE] else []) ∧
    BOOKMARKS_ENGINE ∉ (SyncManager.sync c8Mgr c8Params envOkAll).2.2 ∧
    HISTORY_ENGINE ∉ (SyncManager.sync c8Mgr c8Params envOkAll).2.2 ∧
    (SyncManager.sync c8Mgr c8Params envOkAll).2.1.places = c8Mgr.places :=
  C8_open_failure_degrades c8Mgr c8Params envOkAll placesOpenFailing rfl rfl rfl
    rfl rfl rfl (fun l hl => by cases hl; exact ⟨rfl, rfl⟩)

end SyncMgr
